import Mathlib

/-!
Verification development for the CareerBridge chat subsystem: the
conversation resolver (`ChatController.getOrCreateConversation`) and the
realtime socket handlers (`SocketService`: `join_conversation`,
`send_message`, `mark_read`).  User ids, job ids, conversation ids and
message ids are modelled as natural numbers (Mongo ObjectIds are opaque
totally-ordered identifiers; only equality and ordering are used by the
code).  Message contents are modelled as lists of characters, matching a
JavaScript string viewed as a sequence of characters.
-/

namespace Cb

/-- JavaScript string, viewed as a list of characters. -/
abbrev JStr := List Char

/-- Conversation document (src ConversationSchema): `users` is an array of
user ids, `job` is an optional job reference defaulting to null,
`lastMessage` / `lastMessageAt` are denormalized pointers to the most recent
message.  The compound index on `{users, job}` is declared NON-unique in the
schema ("Uniqueness will be enforced in application logic"). -/
structure Conv where
  id : Nat
  users : List Nat
  job : Option Nat
  lastMessage : Option Nat
  lastMessageAt : Option Nat
deriving DecidableEq, Repr

/-- Message document (src MessageSchema): owning conversation, sender,
content, read flag and nullable read timestamp. -/
structure Msg where
  id : Nat
  conversation : Nat
  sender : Nat
  content : JStr
  isRead : Bool
  readAt : Option Nat
deriving DecidableEq, Repr

/-- Characters treated as whitespace by the JavaScript regex class `\s`
and by `String.prototype.trim` (restricted to the ASCII range, which covers
every content the handlers compare against). -/
def jsWhitespace (c : Char) : Bool :=
  c = ' ' || c = '\t' || c = '\n' || c = '\r' || c = '\x0b' || c = '\x0c'

/-- ASCII lower-case letter, used for the `[a-z]` class (the url regex
carries the `i` flag, so the input is lower-cased before matching). -/
def lowerLetter (c : Char) : Bool :=
  'a' ≤ c && c ≤ 'z'

/-- ASCII digit, the `[0-9]` class. -/
def digitChar (c : Char) : Bool :=
  '0' ≤ c && c ≤ '9'

/-- JavaScript `content.trim()`: strip leading and trailing whitespace. -/
def jsTrim (s : JStr) : JStr :=
  ((s.dropWhile jsWhitespace).reverse.dropWhile jsWhitespace).reverse

/-- Test whether `pat` occurs as the first characters of `t`. -/
def beginsWith : JStr → JStr → Bool
  | [], _ => true
  | _ :: _, [] => false
  | p :: ps, c :: cs => p = c && beginsWith ps cs

/-- Test whether the character at offset `k` of `t` exists and is not
whitespace (the `[^\s]+` continuation of the url alternatives). -/
def nonSpaceAt (t : JStr) (k : Nat) : Bool :=
  match t.drop k with
  | [] => false
  | c :: _ => !jsWhitespace c

/-- Test for a run of `n` digit characters starting at offset `i` of `s`. -/
def digitRunAt (s : JStr) (i n : Nat) : Bool :=
  n ≤ (s.drop i).length && ((s.drop i).take n).all digitChar

/-- Match of the url regex
`/(https?:\/\/[^\s]+|www\.[^\s]+|[^\s]+\.[a-z]{2,})/gi` anchored at offset
`i` of the (already lower-cased) input: one of the three alternatives with
its minimal quantifier witness.  A match of `[^\s]+\.[a-z]{2,}` exists in a
string iff some position carries a non-space character, a dot and two
letters in a row, which is the shape tested by the last alternative. -/
def urlMatchAt (s : JStr) (i : Nat) : Bool :=
  let t := s.drop i
  (beginsWith "http://".data t && nonSpaceAt t 7) ||
  (beginsWith "https://".data t && nonSpaceAt t 8) ||
  (beginsWith "www.".data t && nonSpaceAt t 4) ||
  (match t with
   | c0 :: c1 :: c2 :: c3 :: _ =>
     !jsWhitespace c0 && c1 = '.' && lowerLetter c2 && lowerLetter c3
   | _ => false)

/-- `urlPattern.test(content)` of the send_message handler: the regex has
the `i` flag, modelled by lower-casing the input before the anchored scan
over every starting offset. -/
def testUrl (s : JStr) : Bool :=
  let l := s.map Char.toLower
  (List.range l.length).any (fun i => urlMatchAt l i)

/-- Offsets usable after an optional separator `[-\s]?` sitting at offset
`j`: zero (the separator is skipped by the `?`) and, when a separator
character is present, one. -/
def sepChoices (s : JStr) (j : Nat) : List Nat :=
  match s.drop j with
  | [] => [0]
  | c :: _ => if c = '-' || jsWhitespace c then [0, 1] else [0]

/-- Match of the second phone alternative
`[0-9]{3,4}[-\s]?[0-9]{3,4}[-\s]?[0-9]{3,4}` anchored at offset `i`,
enumerating every quantifier choice. -/
def phoneGroupsAt (s : JStr) (i : Nat) : Bool :=
  [3, 4].any (fun a => digitRunAt s i a &&
    (sepChoices s (i + a)).any (fun s1 => [3, 4].any (fun b =>
      digitRunAt s (i + a + s1) b &&
        (sepChoices s (i + a + s1 + b)).any (fun s2 => [3, 4].any (fun c =>
          digitRunAt s (i + a + s1 + b + s2) c)))))

/-- Match of the phone regex
`/(\+84|0)[0-9]{9,10}|[0-9]{3,4}[-\s]?[0-9]{3,4}[-\s]?[0-9]{3,4}/g`
anchored at offset `i`: either `+84` or `0` followed by at least nine
digits, or the grouped-digit alternative. -/
def phoneMatchAt (s : JStr) (i : Nat) : Bool :=
  (beginsWith "+84".data (s.drop i) && digitRunAt s (i + 3) 9) ||
  (beginsWith "0".data (s.drop i) && digitRunAt s (i + 1) 9) ||
  phoneGroupsAt s i

/-- `phonePattern.test(content)` of the send_message handler: scan over
every starting offset. -/
def testPhone (s : JStr) : Bool :=
  (List.range s.length).any (fun i => phoneMatchAt s i)

/-- Per-user rate-limit record of `SocketService.messageRateLimit`:
message count in the current window and the window deadline. -/
structure RLData where
  count : Nat
  resetTime : Nat
deriving DecidableEq, Repr

/-- The `messageRateLimit` map, userId to rate data, as an association list. -/
abbrev RLMap := List (Nat × RLData)

/-- `Map.get` on the rate-limit map. -/
def rlLookup (m : RLMap) (u : Nat) : Option RLData :=
  match m with
  | [] => none
  | (v, d) :: rest => if v = u then some d else rlLookup rest u

/-- `Map.set` on the rate-limit map (replace the entry if present,
otherwise add it). -/
def rlSet (m : RLMap) (u : Nat) (d : RLData) : RLMap :=
  match m with
  | [] => [(u, d)]
  | (v, e) :: rest => if v = u then (v, d) :: rest else (v, e) :: rlSet rest u d

/-- Rate-limit step of the send_message handler (max 10 messages per
60000 ms window): returns `none` when the send is rejected as rate
limited (the map is left untouched), otherwise the updated map — count
incremented inside a live window, or a fresh `{count 1, now + 60000}`
record when the user has no record or the deadline has passed. -/
def rlStep (m : RLMap) (u : Nat) (now : Nat) : Option RLMap :=
  match rlLookup m u with
  | some d =>
    if now < d.resetTime then
      if 10 ≤ d.count then none
      else some (rlSet m u ⟨d.count + 1, d.resetTime⟩)
    else some (rlSet m u ⟨1, now + 60000⟩)
  | none => some (rlSet m u ⟨1, now + 60000⟩)

/-- Error taxonomy of the socket handlers.  Each constructor corresponds
to one targeted `socket.emit('error', ...)` site of the source:
empty content, oversized content, the rate limiter, the url filter, the
phone filter, a missing conversation, a caller outside the participant
set, a failed message insert and a failed conversation save. -/
inductive SockErr where
  | emptyContent
  | tooLong
  | rateLimited
  | urlBlocked
  | phoneBlocked
  | notFound
  | forbidden
  | createFailed
  | saveFailed
deriving DecidableEq, Repr

/-- Outbound events of the socket layer: a targeted error back to the
caller, the `new_message` broadcast to a conversation room, the
`message_notification` push to a user room, the `messages_read`
broadcast and the `joined_conversation` acknowledgement. -/
inductive Emit where
  | errorEvt (toUser : Nat) (err : SockErr)
  | newMessage (convId : Nat) (msgId : Nat)
  | msgNotify (toUser : Nat) (convId : Nat) (msgId : Nat)
  | messagesRead (convId : Nat) (readBy : Nat)
  | joinedConv (toUser : Nat) (convId : Nat)
deriving DecidableEq, Repr

/-- State touched by the socket handlers: the conversation and message
collections of the store, the in-memory rate-limit map, the room
subscriptions (user, conversation) and the id the store assigns to the
next inserted message. -/
structure SockState where
  convs : List Conv
  msgs : List Msg
  rl : RLMap
  rooms : List (Nat × Nat)
  nextMsgId : Nat
deriving DecidableEq, Repr

/-- `Conversation.findById`. -/
def findConvById (convs : List Conv) (cid : Nat) : Option Conv :=
  convs.find? (fun c => c.id == cid)

/-- Update saved on the conversation after a successful message insert:
point `lastMessage` at the new message and stamp `lastMessageAt`. -/
def convTouch (cid mid now : Nat) (c : Conv) : Conv :=
  if c.id == cid then { c with lastMessage := some mid, lastMessageAt := some now }
  else c

/-- The send_message handler.  Checks run in source order: empty content,
length, rate limiter (which already consumes the counter), url filter,
phone filter, conversation existence, membership; then the message is
inserted, the conversation's last-message pointer is saved, and only then
the `new_message` broadcast and the per-user notifications go out.  The
two store writes can each fail (`createOk` / `saveOk` model the awaited
store calls throwing); any thrown error is caught and surfaced as a
targeted error event, with no broadcast. -/
def sendMessage (st : SockState) (userId cid : Nat) (content : JStr)
    (now : Nat) (createOk saveOk : Bool) :
    Except SockErr Msg × SockState × List Emit :=
  if (jsTrim content).length = 0 then
    (.error .emptyContent, st, [.errorEvt userId .emptyContent])
  else if 5000 < content.length then
    (.error .tooLong, st, [.errorEvt userId .tooLong])
  else
    match rlStep st.rl userId now with
    | none => (.error .rateLimited, st, [.errorEvt userId .rateLimited])
    | some rl' =>
      let st1 : SockState := { st with rl := rl' }
      if testUrl content then
        (.error .urlBlocked, st1, [.errorEvt userId .urlBlocked])
      else if testPhone content then
        (.error .phoneBlocked, st1, [.errorEvt userId .phoneBlocked])
      else
        match findConvById st.convs cid with
        | none => (.error .notFound, st1, [.errorEvt userId .notFound])
        | some conv =>
          if !conv.users.contains userId then
            (.error .forbidden, st1, [.errorEvt userId .forbidden])
          else if !createOk then
            (.error .createFailed, st1, [.errorEvt userId .createFailed])
          else
            let msg : Msg :=
              ⟨st1.nextMsgId, cid, userId, jsTrim content, false, none⟩
            let st2 : SockState :=
              { st1 with msgs := st1.msgs ++ [msg], nextMsgId := st1.nextMsgId + 1 }
            if !saveOk then
              (.error .saveFailed, st2, [.errorEvt userId .saveFailed])
            else
              let st3 : SockState :=
                { st2 with convs := st2.convs.map (convTouch cid msg.id now) }
              (.ok msg, st3,
                .newMessage cid msg.id ::
                  (conv.users.filter (fun v => v != userId)).map
                    (fun v => Emit.msgNotify v cid msg.id))

/-- The join_conversation handler: missing conversation and membership
checks, then the socket joins the conversation room and the join is
acknowledged. -/
def joinConversation (st : SockState) (userId cid : Nat) :
    Except SockErr Unit × SockState × List Emit :=
  match findConvById st.convs cid with
  | none => (.error .notFound, st, [.errorEvt userId .notFound])
  | some conv =>
    if !conv.users.contains userId then
      (.error .forbidden, st, [.errorEvt userId .forbidden])
    else
      (.ok (), { st with rooms := st.rooms ++ [(userId, cid)] },
        [.joinedConv userId cid])

/-- Update applied by `Message.updateMany` in the mark_read handler (and
in `ChatController.markMessagesAsRead`, which runs the same filter and
update): stamp `isRead` and `readAt` on the unread messages of the
conversation that the caller did not send; leave every other message
untouched. -/
def readStamp (userId cid now : Nat) (m : Msg) : Msg :=
  if m.conversation == cid && m.sender != userId && !m.isRead then
    { m with isRead := true, readAt := some now }
  else m

/-- The mark_read handler: missing conversation and membership checks,
then the bulk read-state update followed by the `messages_read`
broadcast. -/
def markRead (st : SockState) (userId cid : Nat) (now : Nat) :
    Except SockErr Unit × SockState × List Emit :=
  match findConvById st.convs cid with
  | none => (.error .notFound, st, [.errorEvt userId .notFound])
  | some conv =>
    if !conv.users.contains userId then
      (.error .forbidden, st, [.errorEvt userId .forbidden])
    else
      (.ok (), { st with msgs := st.msgs.map (readStamp userId cid now) },
        [.messagesRead cid userId])

/-- Iterate `sendMessage` (with both store writes succeeding) over a list
of send times with a fixed sender, conversation and content, collecting
the per-send results. -/
def sendTimes (u cid : Nat) (content : JStr) :
    SockState → List Nat → SockState × List (Except SockErr Msg)
  | st, [] => (st, [])
  | st, t :: ts =>
    let out := sendMessage st u cid content t true true
    let rest := sendTimes u cid content out.2.1 ts
    (rest.1, out.1 :: rest.2)

/-- Error taxonomy of `ChatController.getOrCreateConversation`, keyed by
the HTTP status the controller answers with: 400 for a self-conversation
request, 404 for an unknown user or job, 500 for the
retries-exhausted/internal path. -/
inductive ChatErr where
  | invalidArgument
  | notFound
  | internal
deriving DecidableEq, Repr

/-- The sorted two-element participant array the controller builds
(`[currentUserId, userId].sort()`). -/
def pairList (a b : Nat) : List Nat :=
  if a ≤ b then [a, b] else [b, a]

/-- The Mongo query `{users: {$all: userIds}, job: j}`: both users appear
in the conversation's array and the job field equals the requested
context (null matched to null). -/
def qMatch (c : Conv) (a b : Nat) (j : Option Nat) : Bool :=
  c.users.contains a && c.users.contains b && c.job == j

/-- The in-memory exact-pair filter the controller applies on query
results: the conversation has exactly two users and, sorted, they equal
the sorted requested pair. -/
def exactPair (us : List Nat) (a b : Nat) : Bool :=
  match us with
  | [x, y] =>
    (if x ≤ y then (x, y) else (y, x)) == (if a ≤ b then (a, b) else (b, a))
  | _ => false

/-- Existing-conversation lookup of the controller: run the `$all` + job
query and keep the first result that passes the exact-pair filter (the
source filters the query's result list and takes the first hit; filtering
then taking the first element equals a single find over the conjunction). -/
def findConv (convs : List Conv) (a b : Nat) (j : Option Nat) : Option Conv :=
  convs.find? (fun c => qMatch c a b j && exactPair c.users a b)

/-- Store and directories seen by the conversation resolver: existing
user ids, existing job ids, the conversation collection in insertion
order, and the id the store assigns to the next inserted conversation. -/
structure ChatDB where
  userIds : List Nat
  jobIds : List Nat
  convs : List Conv
  nextConvId : Nat
deriving DecidableEq, Repr

/-- Core of `getOrCreateConversation` after the argument checks, executed
sequentially (no interleaved writer): look the pair up; if absent, the
double-check re-runs the same query against the unchanged store and finds
nothing again, so a new conversation with the sorted pair and the
requested job context is inserted.  The insert cannot raise a duplicate
key error here because the schema's `{users, job}` index is declared
non-unique. -/
def resolveCore (db : ChatDB) (a b : Nat) (j : Option Nat) :
    Except ChatErr Conv × ChatDB :=
  match findConv db.convs a b j with
  | some c => (.ok c, db)
  | none =>
    let c : Conv := ⟨db.nextConvId, pairList a b, j, none, none⟩
    (.ok c, { db with convs := db.convs ++ [c], nextConvId := db.nextConvId + 1 })

/-- Job-reference check of the controller: a null job context passes, a
given job id must exist in the job directory
(`if (jobId) { ... Post.findById(jobId) ... }`). -/
def jobOk (db : ChatDB) : Option Nat → Bool
  | none => true
  | some j => db.jobIds.contains j

/-- `ChatController.getOrCreateConversation` for an authenticated caller,
sequential execution: reject a self conversation (400), an unknown other
user (404), an unknown job reference (404); otherwise resolve the pair
against the store. -/
def getOrCreateConversation (db : ChatDB) (currentUserId userId : Nat)
    (jobId : Option Nat) : Except ChatErr Conv × ChatDB :=
  if currentUserId = userId then (.error .invalidArgument, db)
  else if !db.userIds.contains userId then (.error .notFound, db)
  else if !jobOk db jobId then (.error .notFound, db)
  else resolveCore db currentUserId userId jobId

/-- One retry iteration of the duplicate-key recovery path: first the
narrow `findOne({users: {$all: userIds}, job})` (which applies no
exact-pair filter), then the broad `find({users: {$all: userIds}})`
sorted most-recent-first and filtered in memory for an exact two-user
match with the requested job.  The broad scan's `$all` condition is
implied by the exact-pair filter, so it is folded into one find over the
reversed (most-recent-first) snapshot. -/
def retryQuery (snap : List Conv) (a b : Nat) (j : Option Nat) : Option Conv :=
  match snap.find? (fun c => qMatch c a b j) with
  | some c => some c
  | none =>
    snap.reverse.find? (fun c => exactPair c.users a b && c.job == j)

/-- Duplicate-key recovery loop of the controller (`retries = 3`): after
a create failed with E11000, re-query up to three times — each attempt
sees a possibly fresher store snapshot (`s1`, `s2`, `s3`), since the
conflicting writer's insert may not yet be visible — and return the first
hit; if all three attempts find nothing, answer the 500 internal error
("conversation not found after duplicate key error") rather than an empty
result. -/
def dupKeyRecover (s1 s2 s3 : List Conv) (a b : Nat) (j : Option Nat) :
    Except ChatErr Conv :=
  match retryQuery s1 a b j with
  | some c => .ok c
  | none =>
    match retryQuery s2 a b j with
    | some c => .ok c
    | none =>
      match retryQuery s3 a b j with
      | some c => .ok c
      | none => .error .internal

/-- Program counter of one in-flight `getOrCreateConversation` request at
its store-I/O suspension points: 0 before the first lookup, 1 before the
double-check lookup, 2 before the insert, 3 finished. -/
structure ThSt where
  pc : Nat
  found : Option Conv
deriving DecidableEq, Repr

/-- Two concurrent `getOrCreateConversation` requests for the same pair
and job context sharing the conversation collection. -/
structure Sys where
  convs : List Conv
  nextId : Nat
  th1 : ThSt
  th2 : ThSt
deriving DecidableEq, Repr

/-- One atomic store operation of a request thread: the first lookup and
the double-check each run `findConv` against the current collection and
finish early on a hit; the insert appends the new conversation and always
succeeds, because the schema's `{users, job}` index is non-unique and the
store enforces no other constraint on the pair. -/
def stepResolve (convs : List Conv) (nextId : Nat) (t : ThSt) (a b : Nat)
    (j : Option Nat) : ThSt × List Conv × Nat :=
  match t.pc with
  | 0 =>
    match findConv convs a b j with
    | some c => (⟨3, some c⟩, convs, nextId)
    | none => (⟨1, none⟩, convs, nextId)
  | 1 =>
    match findConv convs a b j with
    | some c => (⟨3, some c⟩, convs, nextId)
    | none => (⟨2, none⟩, convs, nextId)
  | 2 =>
    let c : Conv := ⟨nextId, pairList a b, j, none, none⟩
    (⟨3, some c⟩, convs ++ [c], nextId + 1)
  | _ => (t, convs, nextId)

/-- Schedule step: run one atomic operation of thread 1 (`true`) or
thread 2 (`false`). -/
def stepSys (sys : Sys) (which : Bool) (a b : Nat) (j : Option Nat) : Sys :=
  if which then
    let out := stepResolve sys.convs sys.nextId sys.th1 a b j
    { sys with th1 := out.1, convs := out.2.1, nextId := out.2.2 }
  else
    let out := stepResolve sys.convs sys.nextId sys.th2 a b j
    { sys with th2 := out.1, convs := out.2.1, nextId := out.2.2 }

/-- Run a whole interleaving schedule. -/
def runSys (sys : Sys) (sched : List Bool) (a b : Nat) (j : Option Nat) : Sys :=
  match sched with
  | [] => sys
  | w :: ws => runSys (stepSys sys w a b j) ws a b j

/-- The target conversation exists and the user is one of its
participants. -/
def GoodConv (st : SockState) (u cid : Nat) : Prop :=
  ∃ c, findConvById st.convs cid = some c ∧ c.users.contains u = true

/-- Content that passes every validation of the send_message handler:
non-empty after trimming, within the length bound, and matching neither
the url pattern nor the phone pattern. -/
def ValidContent (content : JStr) : Prop :=
  (jsTrim content).length ≠ 0 ∧ content.length ≤ 5000 ∧
    testUrl content = false ∧ testPhone content = false

/-- Store sanity for the conversation collection: ids were assigned by
the store counter and are distinct. -/
def ChatDBWF (db : ChatDB) : Prop :=
  (∀ c ∈ db.convs, c.id < db.nextConvId) ∧
  (∀ c1 ∈ db.convs, ∀ c2 ∈ db.convs, c1.id = c2.id → c1 = c2)

/-- Fixture conversation between users 1 and 2 used by the concrete
witnesses. -/
def wConv : Conv := ⟨5, [1, 2], none, none, none⟩

/-- Fixture socket state holding only the fixture conversation. -/
def wSt : SockState := ⟨[wConv], [], [], [], 0⟩

/-- Fixture list of nine further send instants inside the first window. -/
def wTs9 : List Nat := [0, 0, 0, 0, 0, 0, 0, 0, 0]

/-- Fixture resolver store: users 1 and 2, job 7, no conversations. -/
def wDb : ChatDB := ⟨[1, 2], [7], [], 0⟩

/-- Fixture message in the fixture conversation, sent by user 2 and not
yet read. -/
def wMsg : Msg := ⟨0, 5, 2, "hi".data, false, none⟩

/-- Fixture socket state holding the fixture conversation and one unread
message from user 2. -/
def wStMsg : SockState := ⟨[wConv], [wMsg], [], [], 1⟩

/-- Two pointwise-equal predicates find the same first element. -/
theorem find?_ext {α : Type} (p q : α → Bool) (h : ∀ a, p a = q a) :
    ∀ l : List α, l.find? p = l.find? q := by
  intro l
  induction l with
  | nil => rfl
  | cons a t ih =>
    cases hpa : p a with
    | true =>
      rw [List.find?_cons_of_pos _ hpa, List.find?_cons_of_pos]
      rw [← h a]
      exact hpa
    | false =>
      rw [List.find?_cons_of_neg _ (by simp [hpa]), List.find?_cons_of_neg _ _, ih]
      rw [← h a]
      simp [hpa]

/-- Setting a user's rate record makes it the one looked up. -/
theorem rlLookup_set_self (m : RLMap) (u : Nat) (d : RLData) :
    rlLookup (rlSet m u d) u = some d := by
  induction m with
  | nil => simp [rlSet, rlLookup]
  | cons p rest ih =>
    obtain ⟨v, e⟩ := p
    by_cases h : v = u
    · simp [rlSet, rlLookup, h]
    · simp [rlSet, rlLookup, h, ih]

/-- Rate-limit step for a user with no record: fresh window, count one. -/
theorem rlStep_fresh (m : RLMap) (u now : Nat) (h : rlLookup m u = none) :
    rlStep m u now = some (rlSet m u ⟨1, now + 60000⟩) := by
  simp [rlStep, h]

/-- Rate-limit step inside a live window under the cap: increment. -/
theorem rlStep_live (m : RLMap) (u now k R : Nat)
    (h : rlLookup m u = some ⟨k, R⟩) (hn : now < R) (hk : k < 10) :
    rlStep m u now = some (rlSet m u ⟨k + 1, R⟩) := by
  simp [rlStep, h, hn, Nat.not_le.mpr hk]

/-- Rate-limit step inside a live window at the cap: reject, no change. -/
theorem rlStep_reject (m : RLMap) (u now k R : Nat)
    (h : rlLookup m u = some ⟨k, R⟩) (hn : now < R) (hk : 10 ≤ k) :
    rlStep m u now = none := by
  simp [rlStep, h, hn, hk]

/-- Rate-limit step after the deadline: reset to count one. -/
theorem rlStep_reset (m : RLMap) (u now k R : Nat)
    (h : rlLookup m u = some ⟨k, R⟩) (hn : R ≤ now) :
    rlStep m u now = some (rlSet m u ⟨1, now + 60000⟩) := by
  simp [rlStep, h, Nat.not_lt.mpr hn]

/-- The conversation touch-up keeps the id. -/
theorem convTouch_id (cid mid now : Nat) (c : Conv) :
    (convTouch cid mid now c).id = c.id := by
  unfold convTouch
  split <;> rfl

/-- The conversation touch-up keeps the participant array. -/
theorem convTouch_users (cid mid now : Nat) (c : Conv) :
    (convTouch cid mid now c).users = c.users := by
  unfold convTouch
  split <;> rfl

/-- Looking a conversation up after the touch-up map finds the touched-up
image of what was found before. -/
theorem findConvById_touch (convs : List Conv) (cid' cid mid now : Nat) :
    findConvById (convs.map (convTouch cid mid now)) cid'
      = (findConvById convs cid').map (convTouch cid mid now) := by
  unfold findConvById
  rw [List.find?_map]
  rw [find?_ext ((fun c => c.id == cid') ∘ convTouch cid mid now)
        (fun c => c.id == cid')
        (fun c => by simp [Function.comp, convTouch_id]) convs]

/-- Send of rate-limited sender: targeted error, state untouched. -/
theorem sendMessage_limited (st : SockState) (u cid : Nat) (content : JStr)
    (now : Nat) (co so : Bool)
    (h1 : (jsTrim content).length ≠ 0) (h2 : content.length ≤ 5000)
    (hrl : rlStep st.rl u now = none) :
    sendMessage st u cid content now co so =
      (.error .rateLimited, st, [.errorEvt u .rateLimited]) := by
  simp [sendMessage, h1, Nat.not_lt.mpr h2, hrl]

/-- Send of url-matching content: targeted error after the rate counter
was already consumed; nothing else changes. -/
theorem sendMessage_url_case (st : SockState) (u cid : Nat) (content : JStr)
    (now : Nat) (co so : Bool) (rl' : RLMap)
    (h1 : (jsTrim content).length ≠ 0) (h2 : content.length ≤ 5000)
    (hrl : rlStep st.rl u now = some rl') (hu : testUrl content = true) :
    sendMessage st u cid content now co so =
      (.error .urlBlocked, { st with rl := rl' }, [.errorEvt u .urlBlocked]) := by
  simp [sendMessage, h1, Nat.not_lt.mpr h2, hrl, hu]

/-- Send of phone-matching content: targeted error after the rate counter
was already consumed; nothing else changes. -/
theorem sendMessage_phone_case (st : SockState) (u cid : Nat) (content : JStr)
    (now : Nat) (co so : Bool) (rl' : RLMap)
    (h1 : (jsTrim content).length ≠ 0) (h2 : content.length ≤ 5000)
    (hrl : rlStep st.rl u now = some rl')
    (hu : testUrl content = false) (hp : testPhone content = true) :
    sendMessage st u cid content now co so =
      (.error .phoneBlocked, { st with rl := rl' }, [.errorEvt u .phoneBlocked]) := by
  simp [sendMessage, h1, Nat.not_lt.mpr h2, hrl, hu, hp]

/-- Send against a missing conversation with content that passes every
validation: not-found error after the rate counter was consumed. -/
theorem sendMessage_notFound_case (st : SockState) (u cid : Nat) (content : JStr)
    (now : Nat) (co so : Bool) (rl' : RLMap)
    (h1 : (jsTrim content).length ≠ 0) (h2 : content.length ≤ 5000)
    (hrl : rlStep st.rl u now = some rl')
    (hu : testUrl content = false) (hp : testPhone content = false)
    (hc : findConvById st.convs cid = none) :
    sendMessage st u cid content now co so =
      (.error .notFound, { st with rl := rl' }, [.errorEvt u .notFound]) := by
  simp [sendMessage, h1, Nat.not_lt.mpr h2, hrl, hu, hp, hc]

/-- Send by a non-participant with content that passes every validation:
forbidden error after the rate counter was consumed. -/
theorem sendMessage_forbidden_case (st : SockState) (u cid : Nat) (content : JStr)
    (now : Nat) (co so : Bool) (rl' : RLMap) (c : Conv)
    (h1 : (jsTrim content).length ≠ 0) (h2 : content.length ≤ 5000)
    (hrl : rlStep st.rl u now = some rl')
    (hu : testUrl content = false) (hp : testPhone content = false)
    (hc : findConvById st.convs cid = some c) (hm : c.users.contains u = false) :
    sendMessage st u cid content now co so =
      (.error .forbidden, { st with rl := rl' }, [.errorEvt u .forbidden]) := by
  have hm' : u ∉ c.users := by simpa using hm
  simp [sendMessage, h1, Nat.not_lt.mpr h2, hrl, hu, hp, hc, hm']

/-- Fully successful send: the message is inserted, the conversation is
touched up, and the broadcast plus the per-user notifications go out. -/
theorem sendMessage_ok_case (st : SockState) (u cid : Nat) (content : JStr)
    (now : Nat) (rl' : RLMap) (c : Conv)
    (h1 : (jsTrim content).length ≠ 0) (h2 : content.length ≤ 5000)
    (hrl : rlStep st.rl u now = some rl')
    (hu : testUrl content = false) (hp : testPhone content = false)
    (hc : findConvById st.convs cid = some c) (hm : c.users.contains u = true) :
    sendMessage st u cid content now true true =
      (.ok ⟨st.nextMsgId, cid, u, jsTrim content, false, none⟩,
       { convs := st.convs.map (convTouch cid st.nextMsgId now),
         msgs := st.msgs ++ [⟨st.nextMsgId, cid, u, jsTrim content, false, none⟩],
         rl := rl',
         rooms := st.rooms,
         nextMsgId := st.nextMsgId + 1 },
       .newMessage cid st.nextMsgId ::
         (c.users.filter (fun v => v != u)).map
           (fun v => Emit.msgNotify v cid st.nextMsgId)) := by
  have hm' : u ∈ c.users := by simpa using hm
  simp [sendMessage, h1, Nat.not_lt.mpr h2, hrl, hu, hp, hc, hm']

/-- Send whose message insert succeeded but whose conversation save then
failed: targeted error, no broadcast, yet the message stays persisted and
the conversation keeps its stale last-message pointer. -/
theorem sendMessage_savefail_case (st : SockState) (u cid : Nat) (content : JStr)
    (now : Nat) (rl' : RLMap) (c : Conv)
    (h1 : (jsTrim content).length ≠ 0) (h2 : content.length ≤ 5000)
    (hrl : rlStep st.rl u now = some rl')
    (hu : testUrl content = false) (hp : testPhone content = false)
    (hc : findConvById st.convs cid = some c) (hm : c.users.contains u = true) :
    sendMessage st u cid content now true false =
      (.error .saveFailed,
       { convs := st.convs,
         msgs := st.msgs ++ [⟨st.nextMsgId, cid, u, jsTrim content, false, none⟩],
         rl := rl',
         rooms := st.rooms,
         nextMsgId := st.nextMsgId + 1 },
       [.errorEvt u .saveFailed]) := by
  have hm' : u ∈ c.users := by simpa using hm
  simp [sendMessage, h1, Nat.not_lt.mpr h2, hrl, hu, hp, hc, hm']

/-- C1: the claim that at most one conversation ever exists per unordered
pair and job context even under concurrent `getOrCreateConversation`
calls fails on this code: the store's `{users, job}` index is declared
non-unique and the application-level check-then-create is not atomic, so
the interleaving in which both requests run their first lookup and their
double-check before either insert leaves two conversations for the same
pair `{1, 2}` and null job context. -/
theorem c1_concurrent_duplicate_conversations :
    ((runSys ⟨[], 0, ⟨0, none⟩, ⟨0, none⟩⟩
        [true, false, true, false, true, false] 1 2 none).convs.length = 2) ∧
    (∀ c ∈ (runSys ⟨[], 0, ⟨0, none⟩, ⟨0, none⟩⟩
        [true, false, true, false, true, false] 1 2 none).convs,
      c.users = [1, 2] ∧ c.job = none) := by
  decide

/-- Sorting the pair does not depend on the argument order. -/
theorem pairList_symm (a b : Nat) : pairList a b = pairList b a := by
  unfold pairList
  by_cases hab : a ≤ b <;> by_cases hba : b ≤ a <;> simp [hab, hba]
  · exact ⟨Nat.le_antisymm hab hba, Nat.le_antisymm hba hab⟩
  · exact absurd (Nat.le_of_not_le hba) hab

/-- The sorted pair contains its left component. -/
theorem pairList_contains_left (a b : Nat) : (pairList a b).contains a = true := by
  unfold pairList
  split <;> simp

/-- The sorted pair contains its right component. -/
theorem pairList_contains_right (a b : Nat) : (pairList a b).contains b = true := by
  unfold pairList
  split <;> simp

/-- Membership form of `pairList_contains_left`. -/
theorem mem_pairList_left (a b : Nat) : a ∈ pairList a b := by
  unfold pairList
  split <;> simp

/-- Membership form of `pairList_contains_right`. -/
theorem mem_pairList_right (a b : Nat) : b ∈ pairList a b := by
  unfold pairList
  split <;> simp

/-- The exact-pair filter accepts the sorted pair itself. -/
theorem exactPair_pairList (a b : Nat) : exactPair (pairList a b) a b = true := by
  unfold exactPair pairList
  by_cases h : a ≤ b <;> simp [h]
  omega

/-- Sorting a pair by either comparison direction yields the same sorted
pair. -/
theorem sortedPair_symm (a b : Nat) :
    (if a ≤ b then (a, b) else (b, a)) = (if b ≤ a then (b, a) else (a, b)) := by
  by_cases hab : a ≤ b <;> by_cases hba : b ≤ a <;> simp [hab, hba]
  · exact ⟨Nat.le_antisymm hab hba, Nat.le_antisymm hba hab⟩
  · exact absurd (Nat.le_of_not_le hba) hab

/-- The exact-pair filter does not depend on the argument order. -/
theorem exactPair_symm (us : List Nat) (a b : Nat) :
    exactPair us a b = exactPair us b a := by
  unfold exactPair
  rcases us with _ | ⟨x, rest⟩
  · rfl
  rcases rest with _ | ⟨y, rest2⟩
  · rfl
  rcases rest2 with _ | ⟨z, rest3⟩
  · rw [sortedPair_symm a b]
  · rfl

/-- The `$all` pair query does not depend on the argument order. -/
theorem qMatch_symm (c : Conv) (a b : Nat) (j : Option Nat) :
    qMatch c a b j = qMatch c b a j := by
  unfold qMatch
  cases c.users.contains a <;> cases c.users.contains b <;> simp

/-- The existing-conversation lookup does not depend on the argument
order. -/
theorem findConv_symm (convs : List Conv) (a b : Nat) (j : Option Nat) :
    findConv convs a b j = findConv convs b a j := by
  unfold findConv
  exact find?_ext _ _ (fun c => by rw [qMatch_symm, exactPair_symm]) convs

/-- The resolver core does not depend on the argument order. -/
theorem resolveCore_symm (db : ChatDB) (a b : Nat) (j : Option Nat) :
    resolveCore db a b j = resolveCore db b a j := by
  unfold resolveCore
  rw [findConv_symm, pairList_symm]

/-- The resolver core never touches the user and job directories. -/
theorem resolveCore_dirs (db : ChatDB) (a b : Nat) (j : Option Nat) :
    (resolveCore db a b j).2.userIds = db.userIds ∧
    (resolveCore db a b j).2.jobIds = db.jobIds := by
  unfold resolveCore
  cases findConv db.convs a b j <;> simp

/-- Appending a conversation for the sorted pair and context to a
collection in which the lookup failed makes it the lookup's hit. -/
theorem findConv_append_self (convs : List Conv) (a b : Nat) (j : Option Nat)
    (hn : findConv convs a b j = none) (n : Nat) (lm lma : Option Nat) :
    findConv (convs ++ [⟨n, pairList a b, j, lm, lma⟩]) a b j
      = some ⟨n, pairList a b, j, lm, lma⟩ := by
  unfold findConv at hn ⊢
  rw [List.find?_append, hn]
  simp [List.find?, qMatch, exactPair_pairList,
    mem_pairList_left, mem_pairList_right]

/-- Re-running the resolver core after a successful run finds the same
conversation and leaves the store unchanged. -/
theorem resolveCore_idem (db : ChatDB) (a b : Nat) (j : Option Nat) (c : Conv)
    (db' : ChatDB) (h : resolveCore db a b j = (.ok c, db')) :
    resolveCore db' a b j = (.ok c, db') := by
  unfold resolveCore at h ⊢
  cases hf : findConv db.convs a b j with
  | some c0 =>
    rw [hf] at h
    simp only [Prod.mk.injEq, Except.ok.injEq] at h
    obtain ⟨hc, hdb⟩ := h
    subst hc
    subst hdb
    rw [hf]
  | none =>
    rw [hf] at h
    simp only [Prod.mk.injEq, Except.ok.injEq] at h
    obtain ⟨hc, hdb⟩ := h
    subst hc
    subst hdb
    rw [findConv_append_self db.convs a b j hf db.nextConvId none none]

/-- What the resolver core returns: always a conversation carrying the
requested job context, either one already in the collection (store
untouched) or a freshly inserted one carrying the next store id. -/
theorem resolveCore_spec (db : ChatDB) (a b : Nat) (j : Option Nat) :
    ∃ c db', resolveCore db a b j = (.ok c, db') ∧ c.job = j ∧
      ((c ∈ db.convs ∧ db' = db) ∨
       (c.id = db.nextConvId ∧ db'.convs = db.convs ++ [c] ∧
        db'.nextConvId = db.nextConvId + 1)) := by
  unfold resolveCore
  cases hf : findConv db.convs a b j with
  | some c0 =>
    refine ⟨c0, db, rfl, ?_, Or.inl ⟨?_, rfl⟩⟩
    · unfold findConv at hf
      have hp := List.find?_some hf
      simp only [qMatch, Bool.and_eq_true, beq_iff_eq] at hp
      exact hp.1.2
    · unfold findConv at hf
      exact List.mem_of_find?_eq_some hf
  | none =>
    exact ⟨_, _, rfl, rfl, Or.inr ⟨rfl, rfl, rfl⟩⟩

/-- A successful `getOrCreateConversation` certifies distinct users, an
existing other user, an existing job context, and a successful core run. -/
theorem getOrCreate_ok_extract (db : ChatDB) (A B : Nat) (j : Option Nat)
    (c : Conv) (db' : ChatDB)
    (h : getOrCreateConversation db A B j = (.ok c, db')) :
    A ≠ B ∧ db.userIds.contains B = true ∧ jobOk db j = true ∧
      resolveCore db A B j = (.ok c, db') := by
  unfold getOrCreateConversation at h
  by_cases hab : A = B
  · rw [if_pos hab] at h
    simp at h
  rw [if_neg hab] at h
  cases hB : db.userIds.contains B with
  | false =>
    rw [hB] at h
    simp at h
  | true =>
    rw [hB] at h
    simp only [Bool.not_true] at h
    rw [if_neg (by simp)] at h
    cases hj : jobOk db j with
    | false =>
      rw [hj] at h
      simp at h
    | true =>
      rw [hj] at h
      simp only [Bool.not_true] at h
      rw [if_neg (by simp)] at h
      exact ⟨hab, rfl, rfl, h⟩

/-- Under the argument checks, `getOrCreateConversation` is the resolver
core. -/
theorem getOrCreate_reduce (db : ChatDB) (A B : Nat) (j : Option Nat)
    (hab : A ≠ B) (hB : db.userIds.contains B = true)
    (hj : jobOk db j = true) :
    getOrCreateConversation db A B j = resolveCore db A B j := by
  unfold getOrCreateConversation
  rw [if_neg hab, hB, hj]
  simp

/-- Symmetry of `getOrCreateConversation` in the two user identities,
given that both exist in the user directory. -/
theorem getOrCreate_symm (db : ChatDB) (A B : Nat) (j : Option Nat)
    (hab : A ≠ B) (hA : db.userIds.contains A = true)
    (hB : db.userIds.contains B = true) :
    getOrCreateConversation db A B j = getOrCreateConversation db B A j := by
  unfold getOrCreateConversation
  rw [if_neg hab, if_neg (show ¬ B = A from fun hh => hab hh.symm), hA, hB]
  cases hjo : jobOk db j with
  | false => simp
  | true => simp [resolveCore_symm db A B j]

/-- Re-running `getOrCreateConversation` after a successful run returns
the same conversation and leaves the store unchanged. -/
theorem getOrCreate_idem (db : ChatDB) (A B : Nat) (j : Option Nat) (c : Conv)
    (db' : ChatDB) (h : getOrCreateConversation db A B j = (.ok c, db')) :
    getOrCreateConversation db' A B j = (.ok c, db') := by
  obtain ⟨hab, hB, hj, hcore⟩ := getOrCreate_ok_extract db A B j c db' h
  have hd := resolveCore_dirs db A B j
  rw [hcore] at hd
  have hB' : db'.userIds.contains B = true := by
    rw [hd.1]
    exact hB
  have hj' : jobOk db' j = true := by
    cases j with
    | none => rfl
    | some jv =>
      show db'.jobIds.contains jv = true
      rw [hd.2]
      exact hj
  rw [getOrCreate_reduce db' A B j hab hB' hj']
  exact resolveCore_idem db A B j c db' hcore

/-- Resolving the same pair first under a job context and then under the
null context yields two conversations with different ids. -/
theorem getOrCreate_job_distinct (db : ChatDB) (A B jv : Nat)
    (hab : A ≠ B) (hB : db.userIds.contains B = true)
    (hj : db.jobIds.contains jv = true) (hwf : ChatDBWF db) :
    ∃ c1 db1 c2 db2,
      getOrCreateConversation db A B (some jv) = (.ok c1, db1) ∧
      getOrCreateConversation db1 A B none = (.ok c2, db2) ∧
      c1.job = some jv ∧ c2.job = none ∧ c1.id ≠ c2.id := by
  obtain ⟨c1, db1, heq1, hjob1, hcase1⟩ := resolveCore_spec db A B (some jv)
  obtain ⟨c2, db2, heq2, hjob2, hcase2⟩ := resolveCore_spec db1 A B none
  have hd := resolveCore_dirs db A B (some jv)
  rw [heq1] at hd
  refine ⟨c1, db1, c2, db2, ?_, ?_, hjob1, hjob2, ?_⟩
  · rw [getOrCreate_reduce db A B (some jv) hab hB hj]
    exact heq1
  · have hB1 : db1.userIds.contains B = true := by
      rw [hd.1]
      exact hB
    rw [getOrCreate_reduce db1 A B none hab hB1 rfl]
    exact heq2
  · intro hid
    rcases hcase1 with ⟨hm1, hdb1⟩ | ⟨hid1, hcv1, hnx1⟩
    · subst hdb1
      rcases hcase2 with ⟨hm2, hdb2⟩ | ⟨hid2, hcv2, hnx2⟩
      · have hcc := hwf.2 c1 hm1 c2 hm2 hid
        rw [hcc] at hjob1
        rw [hjob2] at hjob1
        exact Option.noConfusion hjob1
      · have hlt := hwf.1 c1 hm1
        rw [hid, hid2] at hlt
        exact Nat.lt_irrefl _ hlt
    · rcases hcase2 with ⟨hm2, hdb2⟩ | ⟨hid2, hcv2, hnx2⟩
      · rw [hcv1] at hm2
        rcases List.mem_append.mp hm2 with hin | hsing
        · have hlt := hwf.1 c2 hin
          rw [← hid, hid1] at hlt
          exact Nat.lt_irrefl _ hlt
        · have hcc : c2 = c1 := by simpa using hsing
          rw [hcc] at hjob2
          rw [hjob1] at hjob2
          exact Option.noConfusion hjob2
      · rw [hid1, hid2, hnx1] at hid
        omega

/-- C3: conversation identity is the unordered participant pair plus the
job context: resolving with the users swapped gives the same output;
re-resolving after a successful resolve returns the same conversation
and leaves the store unchanged; and resolving the same pair under a job
context versus the null context returns conversations with different
ids. -/
theorem c3_conversation_identity :
    (∀ (db : ChatDB) (A B : Nat) (j : Option Nat),
      A ≠ B → db.userIds.contains A = true → db.userIds.contains B = true →
      getOrCreateConversation db A B j = getOrCreateConversation db B A j) ∧
    (∀ (db : ChatDB) (A B : Nat) (j : Option Nat) (c : Conv) (db' : ChatDB),
      getOrCreateConversation db A B j = (.ok c, db') →
      getOrCreateConversation db' A B j = (.ok c, db')) ∧
    (∀ (db : ChatDB) (A B jv : Nat),
      A ≠ B → db.userIds.contains B = true → db.jobIds.contains jv = true →
      ChatDBWF db →
      ∃ c1 db1 c2 db2,
        getOrCreateConversation db A B (some jv) = (.ok c1, db1) ∧
        getOrCreateConversation db1 A B none = (.ok c2, db2) ∧
        c1.job = some jv ∧ c2.job = none ∧ c1.id ≠ c2.id) :=
  ⟨fun db A B j hab hA hB => getOrCreate_symm db A B j hab hA hB,
   fun db A B j c db' h => getOrCreate_idem db A B j c db' h,
   fun db A B jv hab hB hj hwf => getOrCreate_job_distinct db A B jv hab hB hj hwf⟩

/-- Witness for C3 at the fixture store: swapping users 1 and 2 gives the
same output, and resolving under job 7 versus no job gives different
conversation ids. -/
theorem c3_conversation_identity_witness :
    (getOrCreateConversation wDb 1 2 none = getOrCreateConversation wDb 2 1 none) ∧
    (∃ c1 db1 c2 db2,
      getOrCreateConversation wDb 1 2 (some 7) = (.ok c1, db1) ∧
      getOrCreateConversation db1 1 2 none = (.ok c2, db2) ∧
      c1.job = some 7 ∧ c2.job = none ∧ c1.id ≠ c2.id) :=
  ⟨c3_conversation_identity.1 wDb 1 2 none (by decide) (by decide) (by decide),
   c3_conversation_identity.2.2 wDb 1 2 7 (by decide) (by decide) (by decide)
     ⟨by simp [wDb], by simp [wDb]⟩⟩

/-- A list accepted by the exact-pair filter contains both pair members. -/
theorem exactPair_mem (us : List Nat) (a b : Nat) (h : exactPair us a b = true) :
    a ∈ us ∧ b ∈ us := by
  unfold exactPair at h
  rcases us with _ | ⟨x, rest⟩
  · exact absurd h (by simp)
  rcases rest with _ | ⟨y, rest2⟩
  · exact absurd h (by simp)
  rcases rest2 with _ | ⟨z, rest3⟩
  · by_cases hxy : x ≤ y <;> by_cases hab : a ≤ b <;>
      simp [hxy, hab] at h <;> simp [h.1, h.2]
  · exact absurd h (by simp)

/-- A hit of one duplicate-key retry attempt matches the pair query. -/
theorem retryQuery_some_qMatch (snap : List Conv) (a b : Nat) (j : Option Nat)
    (c : Conv) (h : retryQuery snap a b j = some c) : qMatch c a b j = true := by
  unfold retryQuery at h
  cases hf : snap.find? (fun c => qMatch c a b j) with
  | some c0 =>
    rw [hf] at h
    injection h with h'
    subst h'
    have hp := List.find?_some hf
    simpa using hp
  | none =>
    rw [hf] at h
    have hp := List.find?_some h
    simp only [Bool.and_eq_true, beq_iff_eq] at hp
    obtain ⟨hex, hjob⟩ := hp
    have hc := exactPair_mem c.users a b hex
    simp [qMatch, hc.1, hc.2, hjob]

/-- A retry attempt over a snapshot with no pair-query match finds
nothing. -/
theorem retryQuery_eq_none (snap : List Conv) (a b : Nat) (j : Option Nat)
    (h : ∀ c ∈ snap, qMatch c a b j = false) : retryQuery snap a b j = none := by
  unfold retryQuery
  have h1 : snap.find? (fun c => qMatch c a b j) = none := by
    rw [List.find?_eq_none]
    intro x hx
    simp [h x hx]
  rw [h1]
  rw [List.find?_eq_none]
  intro x hx hcontra
  have hx' : x ∈ snap := by simpa using hx
  simp only [Bool.and_eq_true, beq_iff_eq] at hcontra
  obtain ⟨hex, hjob⟩ := hcontra
  have hc := exactPair_mem x.users a b hex
  have hq := h x hx'
  simp [qMatch, hc.1, hc.2, hjob] at hq

/-- A retry attempt that finds nothing saw no pair-query match. -/
theorem retryQuery_none_no_qmatch (snap : List Conv) (a b : Nat)
    (j : Option Nat) (h : retryQuery snap a b j = none) :
    ∀ c ∈ snap, qMatch c a b j = false := by
  unfold retryQuery at h
  cases hf : snap.find? (fun c => qMatch c a b j) with
  | some c0 =>
    rw [hf] at h
    exact absurd h (by simp)
  | none =>
    intro c hc
    have hn := List.find?_eq_none.mp hf c hc
    simpa using hn

/-- When every retry snapshot lacks a pair-query match, the duplicate-key
recovery answers the internal error. -/
theorem dupKeyRecover_exhausted (s1 s2 s3 : List Conv) (a b : Nat)
    (j : Option Nat)
    (h1 : ∀ c ∈ s1, qMatch c a b j = false)
    (h2 : ∀ c ∈ s2, qMatch c a b j = false)
    (h3 : ∀ c ∈ s3, qMatch c a b j = false) :
    dupKeyRecover s1 s2 s3 a b j = .error .internal := by
  unfold dupKeyRecover
  rw [retryQuery_eq_none s1 a b j h1, retryQuery_eq_none s2 a b j h2,
    retryQuery_eq_none s3 a b j h3]

/-- When some retry snapshot holds a pair-query match, the duplicate-key
recovery returns a matching conversation rather than an error. -/
theorem dupKeyRecover_finds (s1 s2 s3 : List Conv) (a b : Nat) (j : Option Nat)
    (h : (∃ c ∈ s1, qMatch c a b j = true) ∨ (∃ c ∈ s2, qMatch c a b j = true) ∨
         (∃ c ∈ s3, qMatch c a b j = true)) :
    ∃ c', dupKeyRecover s1 s2 s3 a b j = .ok c' ∧ qMatch c' a b j = true := by
  cases r1 : retryQuery s1 a b j with
  | some c' =>
    refine ⟨c', ?_, retryQuery_some_qMatch s1 a b j c' r1⟩
    unfold dupKeyRecover
    rw [r1]
  | none =>
    cases r2 : retryQuery s2 a b j with
    | some c' =>
      refine ⟨c', ?_, retryQuery_some_qMatch s2 a b j c' r2⟩
      unfold dupKeyRecover
      rw [r1, r2]
    | none =>
      cases r3 : retryQuery s3 a b j with
      | some c' =>
        refine ⟨c', ?_, retryQuery_some_qMatch s3 a b j c' r3⟩
        unfold dupKeyRecover
        rw [r1, r2, r3]
      | none =>
        exfalso
        rcases h with ⟨c, hc, hq⟩ | ⟨c, hc, hq⟩ | ⟨c, hc, hq⟩
        · rw [retryQuery_none_no_qmatch s1 a b j r1 c hc] at hq
          exact Bool.noConfusion hq
        · rw [retryQuery_none_no_qmatch s2 a b j r2 c hc] at hq
          exact Bool.noConfusion hq
        · rw [retryQuery_none_no_qmatch s3 a b j r3 c hc] at hq
          exact Bool.noConfusion hq

/-- C4: after a duplicate-key failure the resolver re-queries with a
bounded retry loop: whenever a conversation matching the pair and
context becomes visible in one of the three retry snapshots, the loop
returns a matching conversation and no error; only when every snapshot
lacks a match does it return the internal error; and the outcome is
always one of these two — never an empty or partial result. -/
theorem c4_duplicate_key_recovery :
    (∀ (s1 s2 s3 : List Conv) (a b : Nat) (j : Option Nat),
      ((∃ c ∈ s1, qMatch c a b j = true) ∨ (∃ c ∈ s2, qMatch c a b j = true) ∨
       (∃ c ∈ s3, qMatch c a b j = true)) →
      ∃ c', dupKeyRecover s1 s2 s3 a b j = .ok c' ∧ qMatch c' a b j = true) ∧
    (∀ (s1 s2 s3 : List Conv) (a b : Nat) (j : Option Nat),
      (∀ c ∈ s1, qMatch c a b j = false) → (∀ c ∈ s2, qMatch c a b j = false) →
      (∀ c ∈ s3, qMatch c a b j = false) →
      dupKeyRecover s1 s2 s3 a b j = .error .internal) ∧
    (∀ (s1 s2 s3 : List Conv) (a b : Nat) (j : Option Nat),
      dupKeyRecover s1 s2 s3 a b j = .error .internal ∨
      ∃ c', dupKeyRecover s1 s2 s3 a b j = .ok c' ∧ qMatch c' a b j = true) := by
  refine ⟨dupKeyRecover_finds, dupKeyRecover_exhausted, ?_⟩
  intro s1 s2 s3 a b j
  cases r1 : retryQuery s1 a b j with
  | some c' =>
    refine Or.inr ⟨c', ?_, retryQuery_some_qMatch s1 a b j c' r1⟩
    unfold dupKeyRecover
    rw [r1]
  | none =>
    cases r2 : retryQuery s2 a b j with
    | some c' =>
      refine Or.inr ⟨c', ?_, retryQuery_some_qMatch s2 a b j c' r2⟩
      unfold dupKeyRecover
      rw [r1, r2]
    | none =>
      cases r3 : retryQuery s3 a b j with
      | some c' =>
        refine Or.inr ⟨c', ?_, retryQuery_some_qMatch s3 a b j c' r3⟩
        unfold dupKeyRecover
        rw [r1, r2, r3]
      | none =>
        refine Or.inl ?_
        unfold dupKeyRecover
        rw [r1, r2, r3]

/-- Witness for C4: a conversation for the pair visible only in the
second retry snapshot is found and returned, and empty snapshots produce
the internal error. -/
theorem c4_duplicate_key_recovery_witness :
    (∃ c', dupKeyRecover [] [wConv] [] 1 2 none = .ok c' ∧
      qMatch c' 1 2 none = true) ∧
    dupKeyRecover [] [] [] 1 2 none = .error .internal :=
  ⟨c4_duplicate_key_recovery.1 [] [wConv] [] 1 2 none
     (Or.inr (Or.inl ⟨wConv, by decide, by decide⟩)),
   c4_duplicate_key_recovery.2.1 [] [] [] 1 2 none
     (by simp) (by simp) (by simp)⟩

/-- C9: `getOrCreateConversation` rejects a self conversation with the
invalid-argument error and creates nothing, answers not-found for an
unknown other user and for an unknown job id, and the retries-exhausted
outcome of the duplicate-key recovery is the internal error, a value
distinct from both rejections. -/
theorem c9_argument_errors :
    (∀ (db : ChatDB) (A : Nat) (j : Option Nat),
      getOrCreateConversation db A A j = (.error .invalidArgument, db)) ∧
    (∀ (db : ChatDB) (A B : Nat) (j : Option Nat),
      A ≠ B → db.userIds.contains B = false →
      getOrCreateConversation db A B j = (.error .notFound, db)) ∧
    (∀ (db : ChatDB) (A B jv : Nat),
      A ≠ B → db.userIds.contains B = true → db.jobIds.contains jv = false →
      getOrCreateConversation db A B (some jv) = (.error .notFound, db)) ∧
    (∀ (s1 s2 s3 : List Conv) (a b : Nat) (j : Option Nat),
      (∀ c ∈ s1, qMatch c a b j = false) → (∀ c ∈ s2, qMatch c a b j = false) →
      (∀ c ∈ s3, qMatch c a b j = false) →
      dupKeyRecover s1 s2 s3 a b j = .error .internal) ∧
    (ChatErr.internal ≠ ChatErr.notFound ∧
      ChatErr.internal ≠ ChatErr.invalidArgument) := by
  refine ⟨?_, ?_, ?_, dupKeyRecover_exhausted, by decide, by decide⟩
  · intro db A j
    unfold getOrCreateConversation
    rw [if_pos rfl]
  · intro db A B j hab hB
    unfold getOrCreateConversation
    rw [if_neg hab, hB]
    simp
  · intro db A B jv hab hB hj
    unfold getOrCreateConversation
    rw [if_neg hab, hB, show jobOk db (some jv) = false from hj]
    simp

/-- Witness for C9 at the fixture store: a self conversation, an unknown
user 3, an unknown job 9 and exhausted retries. -/
theorem c9_argument_errors_witness :
    getOrCreateConversation wDb 1 1 none = (.error .invalidArgument, wDb) ∧
    getOrCreateConversation wDb 1 3 none = (.error .notFound, wDb) ∧
    getOrCreateConversation wDb 1 2 (some 9) = (.error .notFound, wDb) ∧
    dupKeyRecover [] [] [] 3 4 none = .error .internal :=
  ⟨c9_argument_errors.1 wDb 1 none,
   c9_argument_errors.2.1 wDb 1 3 none (by decide) (by decide),
   c9_argument_errors.2.2.1 wDb 1 2 9 (by decide) (by decide) (by decide),
   c9_argument_errors.2.2.2.1 [] [] [] 3 4 none (by simp) (by simp) (by simp)⟩

/-- Unfolding one iteration of `sendTimes`. -/
theorem sendTimes_cons (u cid : Nat) (content : JStr) (st : SockState)
    (t : Nat) (ts : List Nat) :
    sendTimes u cid content st (t :: ts) =
      ((sendTimes u cid content (sendMessage st u cid content t true true).2.1 ts).1,
       (sendMessage st u cid content t true true).1 ::
         (sendTimes u cid content (sendMessage st u cid content t true true).2.1 ts).2) :=
  rfl

/-- Running valid sends inside a live window under the cap: every send
succeeds, the counter advances by the number of sends, the conversation
stays available, and one message per send is persisted. -/
theorem sendTimes_run (u cid : Nat) (content : JStr)
    (h1 : (jsTrim content).length ≠ 0) (h2 : content.length ≤ 5000)
    (hu : testUrl content = false) (hp : testPhone content = false) :
    ∀ (ts : List Nat) (st : SockState) (k R : Nat),
      GoodConv st u cid → rlLookup st.rl u = some ⟨k, R⟩ →
      (∀ t ∈ ts, t < R) → k + ts.length ≤ 10 →
      (∀ r ∈ (sendTimes u cid content st ts).2, ∃ m, r = .ok m) ∧
      (sendTimes u cid content st ts).2.length = ts.length ∧
      rlLookup (sendTimes u cid content st ts).1.rl u = some ⟨k + ts.length, R⟩ ∧
      GoodConv (sendTimes u cid content st ts).1 u cid ∧
      (sendTimes u cid content st ts).1.msgs.length
        = st.msgs.length + ts.length := by
  intro ts
  induction ts with
  | nil =>
    intro st k R hg hrl hts hk
    exact ⟨by simp [sendTimes], by simp [sendTimes],
      by simpa [sendTimes] using hrl, by simpa [sendTimes] using hg,
      by simp [sendTimes]⟩
  | cons t ts ih =>
    intro st k R hg hrl hts hk
    obtain ⟨c, hc, hm⟩ := hg
    have hkk : k < 10 := by
      simp only [List.length_cons] at hk
      omega
    have hstep := sendMessage_ok_case st u cid content t
      (rlSet st.rl u ⟨k + 1, R⟩) c h1 h2
      (rlStep_live st.rl u t k R hrl (hts t (by simp)) hkk) hu hp hc hm
    rw [sendTimes_cons, hstep]
    have hg' : GoodConv
        { convs := st.convs.map (convTouch cid st.nextMsgId t),
          msgs := st.msgs ++ [⟨st.nextMsgId, cid, u, jsTrim content, false, none⟩],
          rl := rlSet st.rl u ⟨k + 1, R⟩,
          rooms := st.rooms,
          nextMsgId := st.nextMsgId + 1 } u cid := by
      refine ⟨convTouch cid st.nextMsgId t c, ?_, ?_⟩
      · show findConvById (st.convs.map (convTouch cid st.nextMsgId t)) cid = _
        rw [findConvById_touch, hc]
        rfl
      · rw [convTouch_users]
        exact hm
    have hrl' : rlLookup (rlSet st.rl u ⟨k + 1, R⟩) u = some ⟨k + 1, R⟩ :=
      rlLookup_set_self st.rl u ⟨k + 1, R⟩
    obtain ⟨iha, ihlen, ihb, ihc, ihd⟩ := ih _ (k + 1) R hg' hrl'
      (fun t' ht' => hts t' (by simp [ht'])) (by simp only [List.length_cons] at hk; omega)
    refine ⟨?_, ?_, ?_, ihc, ?_⟩
    · intro r hr
      rcases List.mem_cons.mp hr with hr1 | hr2
      · exact ⟨_, hr1⟩
      · exact iha r hr2
    · simp [ihlen]
    · have harith : k + (ts.length + 1) = (k + 1) + ts.length := by omega
      simp only [List.length_cons, harith]
      exact ihb
    · simp only [List.length_cons]
      rw [ihd]
      simp
      omega

/-- C2: starting from a user with no rate record, ten valid sends inside
the 60-second window that the first send opens all succeed; the eleventh
send inside the same window is rejected as rate limited with a targeted
error and leaves the whole state — in particular the message store —
untouched; and the next send at or after the window's deadline succeeds
with the counter reset to one (not accumulated). -/
theorem c2_rate_limit_window (st : SockState) (u cid : Nat) (content : JStr)
    (t1 t11 t12 : Nat) (ts9 : List Nat)
    (hg : GoodConv st u cid) (hrl0 : rlLookup st.rl u = none)
    (hv : ValidContent content)
    (hlen : ts9.length = 9) (hts : ∀ t ∈ ts9, t < t1 + 60000)
    (ht11 : t11 < t1 + 60000) (ht12 : t1 + 60000 ≤ t12) :
    ∃ stA results,
      sendTimes u cid content st (t1 :: ts9) = (stA, results) ∧
      results.length = 10 ∧
      (∀ r ∈ results, ∃ m, r = .ok m) ∧
      sendMessage stA u cid content t11 true true =
        (.error .rateLimited, stA, [.errorEvt u .rateLimited]) ∧
      (∃ m stB emits,
        sendMessage stA u cid content t12 true true = (.ok m, stB, emits) ∧
        rlLookup stB.rl u = some ⟨1, t12 + 60000⟩ ∧
        stB.msgs.length = stA.msgs.length + 1) := by
  obtain ⟨hne, hle, hu, hp⟩ := hv
  obtain ⟨c, hc, hm⟩ := hg
  have hstep := sendMessage_ok_case st u cid content t1
    (rlSet st.rl u ⟨1, t1 + 60000⟩) c hne hle
    (rlStep_fresh st.rl u t1 hrl0) hu hp hc hm
  set st0 : SockState :=
    { convs := st.convs.map (convTouch cid st.nextMsgId t1),
      msgs := st.msgs ++ [⟨st.nextMsgId, cid, u, jsTrim content, false, none⟩],
      rl := rlSet st.rl u ⟨1, t1 + 60000⟩,
      rooms := st.rooms,
      nextMsgId := st.nextMsgId + 1 } with hst0
  have hg0 : GoodConv st0 u cid := by
    refine ⟨convTouch cid st.nextMsgId t1 c, ?_, ?_⟩
    · show findConvById (st.convs.map (convTouch cid st.nextMsgId t1)) cid = _
      rw [findConvById_touch, hc]
      rfl
    · rw [convTouch_users]
      exact hm
  have hrl1 : rlLookup st0.rl u = some ⟨1, t1 + 60000⟩ :=
    rlLookup_set_self st.rl u ⟨1, t1 + 60000⟩
  obtain ⟨ra, rlen, rb, rc, rd⟩ := sendTimes_run u cid content hne hle hu hp
    ts9 st0 1 (t1 + 60000) hg0 hrl1 hts (by omega)
  have hcount : rlLookup (sendTimes u cid content st0 ts9).1.rl u
      = some ⟨10, t1 + 60000⟩ := by
    have h10 : 1 + ts9.length = 10 := by omega
    rwa [h10] at rb
  obtain ⟨c', hc', hm'⟩ := rc
  refine ⟨(sendTimes u cid content st0 ts9).1,
    (Except.ok (⟨st.nextMsgId, cid, u, jsTrim content, false, none⟩ : Msg)) ::
      (sendTimes u cid content st0 ts9).2, ?_, ?_, ?_, ?_, ?_⟩
  · rw [sendTimes_cons, hstep]
  · simp [rlen, hlen]
  · intro r hr
    rcases List.mem_cons.mp hr with h | h
    · exact ⟨_, h⟩
    · exact ra r h
  · exact sendMessage_limited _ u cid content t11 true true hne hle
      (rlStep_reject _ u t11 10 (t1 + 60000) hcount ht11 (by omega))
  · have hstep12 := sendMessage_ok_case (sendTimes u cid content st0 ts9).1
      u cid content t12
      (rlSet (sendTimes u cid content st0 ts9).1.rl u ⟨1, t12 + 60000⟩) c'
      hne hle (rlStep_reset _ u t12 10 (t1 + 60000) hcount ht12) hu hp hc' hm'
    refine ⟨_, _, _, hstep12, ?_, ?_⟩
    · exact rlLookup_set_self _ _ _
    · simp

/-- Witness for C2 at the fixture state: user 1 sends "hello" ten times
at instants inside the first window, the eleventh send at instant 30000
is rejected without state change, and a send at the deadline 60000
succeeds with a reset counter. -/
theorem c2_rate_limit_window_witness :
    ∃ stA results,
      sendTimes 1 5 "hello".data wSt (0 :: wTs9) = (stA, results) ∧
      results.length = 10 ∧
      (∀ r ∈ results, ∃ m, r = .ok m) ∧
      sendMessage stA 1 5 "hello".data 30000 true true =
        (.error .rateLimited, stA, [.errorEvt 1 .rateLimited]) ∧
      (∃ m stB emits,
        sendMessage stA 1 5 "hello".data 60000 true true = (.ok m, stB, emits) ∧
        rlLookup stB.rl 1 = some ⟨1, 60000 + 60000⟩ ∧
        stB.msgs.length = stA.msgs.length + 1) :=
  c2_rate_limit_window wSt 1 5 "hello".data 0 30000 60000 wTs9
    ⟨wConv, by decide, by decide⟩ (by decide)
    ⟨by decide, by decide, by decide, by decide⟩ (by decide)
    (by decide) (by decide) (by decide)

/-- Running url-carrying sends inside a live window under the cap: every
send is rejected by the url filter, yet the counter advances by the
number of sends; messages, conversations and rooms stay untouched. -/
theorem sendTimes_url_run (u cid : Nat) (content : JStr)
    (h1 : (jsTrim content).length ≠ 0) (h2 : content.length ≤ 5000)
    (hb : testUrl content = true) :
    ∀ (ts : List Nat) (st : SockState) (k R : Nat),
      rlLookup st.rl u = some ⟨k, R⟩ →
      (∀ t ∈ ts, t < R) → k + ts.length ≤ 10 →
      (∀ r ∈ (sendTimes u cid content st ts).2, r = .error .urlBlocked) ∧
      rlLookup (sendTimes u cid content st ts).1.rl u = some ⟨k + ts.length, R⟩ ∧
      (sendTimes u cid content st ts).1.msgs = st.msgs ∧
      (sendTimes u cid content st ts).1.convs = st.convs ∧
      (sendTimes u cid content st ts).1.rooms = st.rooms := by
  intro ts
  induction ts with
  | nil =>
    intro st k R hrl hts hk
    exact ⟨by simp [sendTimes], by simpa [sendTimes] using hrl,
      by simp [sendTimes], by simp [sendTimes], by simp [sendTimes]⟩
  | cons t ts ih =>
    intro st k R hrl hts hk
    have hkk : k < 10 := by
      simp only [List.length_cons] at hk
      omega
    have hstep := sendMessage_url_case st u cid content t true true
      (rlSet st.rl u ⟨k + 1, R⟩) h1 h2
      (rlStep_live st.rl u t k R hrl (hts t (by simp)) hkk) hb
    rw [sendTimes_cons, hstep]
    obtain ⟨iha, ihb, ihm, ihc, ihr⟩ := ih { st with rl := rlSet st.rl u ⟨k + 1, R⟩ }
      (k + 1) R (rlLookup_set_self st.rl u ⟨k + 1, R⟩)
      (fun t' ht' => hts t' (by simp [ht']))
      (by simp only [List.length_cons] at hk; omega)
    refine ⟨?_, ?_, ?_, ?_, ?_⟩
    · intro r hr
      rcases List.mem_cons.mp hr with h | h
      · exact h
      · exact iha r h
    · have harith : k + (ts.length + 1) = (k + 1) + ts.length := by omega
      simp only [List.length_cons, harith]
      exact ihb
    · exact ihm
    · exact ihc
    · exact ihr

/-- C10: any send passing the empty and length checks consumes the
sender's rate counter before the content filters and the membership
check run: a url-rejected send still stores the updated counter, so ten
url-carrying sends inside one window persist nothing yet drive the
counter to ten, and an eleventh otherwise-valid send inside the same
window is rejected as rate limited with no state change. -/
theorem c10_rejected_sends_consume_quota :
    (∀ (st : SockState) (u cid : Nat) (content : JStr) (now : Nat)
       (co so : Bool) (rl' : RLMap),
      (jsTrim content).length ≠ 0 → content.length ≤ 5000 →
      rlStep st.rl u now = some rl' → testUrl content = true →
      (sendMessage st u cid content now co so).1 = .error .urlBlocked ∧
      (sendMessage st u cid content now co so).2.1.rl = rl' ∧
      (sendMessage st u cid content now co so).2.1.msgs = st.msgs) ∧
    (∀ (st : SockState) (u cid : Nat) (bad good : JStr) (t1 t11 : Nat)
       (ts9 : List Nat),
      rlLookup st.rl u = none →
      (jsTrim bad).length ≠ 0 → bad.length ≤ 5000 → testUrl bad = true →
      ValidContent good →
      ts9.length = 9 → (∀ t ∈ ts9, t < t1 + 60000) → t11 < t1 + 60000 →
      (∀ r ∈ (sendTimes u cid bad st (t1 :: ts9)).2, r = .error .urlBlocked) ∧
      (sendTimes u cid bad st (t1 :: ts9)).1.msgs = st.msgs ∧
      sendMessage (sendTimes u cid bad st (t1 :: ts9)).1 u cid good t11 true true
        = (.error .rateLimited, (sendTimes u cid bad st (t1 :: ts9)).1,
           [.errorEvt u .rateLimited])) := by
  constructor
  · intro st u cid content now co so rl' h1 h2 hrl hb
    rw [sendMessage_url_case st u cid content now co so rl' h1 h2 hrl hb]
    exact ⟨rfl, rfl, rfl⟩
  · intro st u cid bad good t1 t11 ts9 hrl0 hb1 hb2 hb hv hlen hts ht11
    obtain ⟨gne, gle, gu, gp⟩ := hv
    have hstep := sendMessage_url_case st u cid bad t1 true true
      (rlSet st.rl u ⟨1, t1 + 60000⟩) hb1 hb2
      (rlStep_fresh st.rl u t1 hrl0) hb
    rw [sendTimes_cons, hstep]
    obtain ⟨iha, ihb, ihm, ihc, ihr⟩ :=
      sendTimes_url_run u cid bad hb1 hb2 hb ts9
        { st with rl := rlSet st.rl u ⟨1, t1 + 60000⟩ } 1 (t1 + 60000)
        (rlLookup_set_self st.rl u ⟨1, t1 + 60000⟩) hts (by omega)
    have hcount : rlLookup
        (sendTimes u cid bad { st with rl := rlSet st.rl u ⟨1, t1 + 60000⟩ } ts9).1.rl u
        = some ⟨10, t1 + 60000⟩ := by
      have h10 : 1 + ts9.length = 10 := by omega
      rwa [h10] at ihb
    refine ⟨?_, ihm, ?_⟩
    · intro r hr
      rcases List.mem_cons.mp hr with h | h
      · exact h
      · exact iha r h
    · exact sendMessage_limited _ u cid good t11 true true gne gle
        (rlStep_reject _ u t11 10 (t1 + 60000) hcount ht11 (by omega))

/-- Witness for C10 at the fixture state: ten sends of a url-carrying
message are all rejected by the url filter and persist nothing, yet the
eleventh send of a clean message inside the window is rejected as rate
limited. -/
theorem c10_rejected_sends_consume_quota_witness :
    (∀ r ∈ (sendTimes 1 5 "http://x".data wSt (0 :: wTs9)).2,
      r = .error .urlBlocked) ∧
    (sendTimes 1 5 "http://x".data wSt (0 :: wTs9)).1.msgs = wSt.msgs ∧
    sendMessage (sendTimes 1 5 "http://x".data wSt (0 :: wTs9)).1 1 5
      "hello".data 30000 true true
      = (.error .rateLimited, (sendTimes 1 5 "http://x".data wSt (0 :: wTs9)).1,
         [.errorEvt 1 .rateLimited]) :=
  c10_rejected_sends_consume_quota.2 wSt 1 5 "http://x".data "hello".data 0
    30000 wTs9 (by decide) (by decide) (by decide) (by decide)
    ⟨by decide, by decide, by decide, by decide⟩ (by decide) (by decide)
    (by decide)

/-- C5: the content policy of the send_message handler: content matching
the url pattern — in particular "http://example.com" — is rejected
without persisting anything, content matching the phone pattern — in
particular the ten-digit "0123456789" — is rejected without persisting
anything, and content matching neither pattern is accepted and persisted
when the other preconditions hold. -/
theorem c5_content_policy :
    (testUrl "http://example.com".data = true) ∧
    (testPhone "0123456789".data = true) ∧
    (∀ (st : SockState) (u cid : Nat) (content : JStr) (now : Nat)
       (co so : Bool) (rl' : RLMap),
      (jsTrim content).length ≠ 0 → content.length ≤ 5000 →
      rlStep st.rl u now = some rl' → testUrl content = true →
      sendMessage st u cid content now co so =
        (.error .urlBlocked, { st with rl := rl' }, [.errorEvt u .urlBlocked])) ∧
    (∀ (st : SockState) (u cid : Nat) (content : JStr) (now : Nat)
       (co so : Bool) (rl' : RLMap),
      (jsTrim content).length ≠ 0 → content.length ≤ 5000 →
      rlStep st.rl u now = some rl' → testUrl content = false →
      testPhone content = true →
      sendMessage st u cid content now co so =
        (.error .phoneBlocked, { st with rl := rl' }, [.errorEvt u .phoneBlocked])) ∧
    (∀ (st : SockState) (u cid : Nat) (content : JStr) (now : Nat)
       (rl' : RLMap) (c : Conv),
      ValidContent content → rlStep st.rl u now = some rl' →
      findConvById st.convs cid = some c → c.users.contains u = true →
      ∃ m, (sendMessage st u cid content now true true).1 = .ok m ∧
        (sendMessage st u cid content now true true).2.1.msgs
          = st.msgs ++ [m]) := by
  refine ⟨by decide, by decide, ?_, ?_, ?_⟩
  · intro st u cid content now co so rl' h1 h2 hrl hb
    exact sendMessage_url_case st u cid content now co so rl' h1 h2 hrl hb
  · intro st u cid content now co so rl' h1 h2 hrl hu hp
    exact sendMessage_phone_case st u cid content now co so rl' h1 h2 hrl hu hp
  · intro st u cid content now rl' c hv hrl hc hm
    obtain ⟨hne, hle, hu, hp⟩ := hv
    rw [sendMessage_ok_case st u cid content now rl' c hne hle hrl hu hp hc hm]
    exact ⟨_, rfl, rfl⟩

/-- Witness for C5 at the fixture state: "http://example.com" is rejected
by the url filter, "0123456789" by the phone filter, and "hello" is
accepted and appended to the message store. -/
theorem c5_content_policy_witness :
    sendMessage wSt 1 5 "http://example.com".data 0 true true
      = (.error .urlBlocked, { wSt with rl := [(1, ⟨1, 60000⟩)] },
         [.errorEvt 1 .urlBlocked]) ∧
    sendMessage wSt 1 5 "0123456789".data 0 true true
      = (.error .phoneBlocked, { wSt with rl := [(1, ⟨1, 60000⟩)] },
         [.errorEvt 1 .phoneBlocked]) ∧
    (∃ m, (sendMessage wSt 1 5 "hello".data 0 true true).1 = .ok m ∧
      (sendMessage wSt 1 5 "hello".data 0 true true).2.1.msgs
        = wSt.msgs ++ [m]) :=
  ⟨c5_content_policy.2.2.1 wSt 1 5 "http://example.com".data 0 true true
     [(1, ⟨1, 60000⟩)] (by decide) (by decide) (by decide) (by decide),
   c5_content_policy.2.2.2.1 wSt 1 5 "0123456789".data 0 true true
     [(1, ⟨1, 60000⟩)] (by decide) (by decide) (by decide) (by decide)
     (by decide),
   c5_content_policy.2.2.2.2 wSt 1 5 "hello".data 0 [(1, ⟨1, 60000⟩)] wConv
     ⟨by decide, by decide, by decide, by decide⟩ (by decide) (by decide)
     (by decide)⟩

/-- Applying the read-state update twice is the same as applying it
once. -/
theorem readStamp_idem (u cid now now' : Nat) (m : Msg) :
    readStamp u cid now' (readStamp u cid now m) = readStamp u cid now m := by
  unfold readStamp
  by_cases h : (m.conversation == cid && m.sender != u && !m.isRead) = true
  · rw [if_pos h]
    simp
  · rw [if_neg h, if_neg h]

/-- The mark_read handler for a participant of an existing conversation:
acknowledge, map the read-state update over the message store, broadcast
the read receipt. -/
theorem markRead_ok (st : SockState) (u cid now : Nat) (c : Conv)
    (hc : findConvById st.convs cid = some c) (hm : c.users.contains u = true) :
    markRead st u cid now =
      (.ok (), { st with msgs := st.msgs.map (readStamp u cid now) },
       [.messagesRead cid u]) := by
  have hm' : u ∈ c.users := by simpa using hm
  simp [markRead, hc, hm']

/-- C8: mark_read by a participant succeeds, marks exactly the messages
of that conversation not authored by the caller as read (stamping
`readAt`), touches no other message and nothing but the message store,
and is idempotent: the second call with no new messages in between also
succeeds and leaves the state exactly as the first call left it. -/
theorem c8_markread_idempotent :
    ∀ (st : SockState) (u cid now now' : Nat) (c : Conv),
      findConvById st.convs cid = some c → c.users.contains u = true →
      ∃ st1, markRead st u cid now = (.ok (), st1, [.messagesRead cid u]) ∧
        st1.convs = st.convs ∧ st1.rl = st.rl ∧ st1.rooms = st.rooms ∧
        st1.msgs.length = st.msgs.length ∧
        (∀ m' ∈ st1.msgs, m'.conversation = cid → m'.sender ≠ u →
          m'.isRead = true) ∧
        (∀ m ∈ st.msgs, m.conversation = cid → m.sender ≠ u →
          m.isRead = false →
          ({ m with isRead := true, readAt := some now } : Msg) ∈ st1.msgs) ∧
        (∀ m' ∈ st1.msgs, (m'.conversation ≠ cid ∨ m'.sender = u) →
          m' ∈ st.msgs) ∧
        markRead st1 u cid now' = (.ok (), st1, [.messagesRead cid u]) := by
  intro st u cid now now' c hc hm
  refine ⟨{ st with msgs := st.msgs.map (readStamp u cid now) },
    markRead_ok st u cid now c hc hm, rfl, rfl, rfl, by simp, ?_, ?_, ?_, ?_⟩
  · intro m' hm' hconv hsend
    rcases List.mem_map.mp hm' with ⟨m, hmem, hfm⟩
    by_cases hcond : (m.conversation == cid && m.sender != u && !m.isRead) = true
    · rw [← hfm]
      unfold readStamp
      rw [if_pos hcond]
    · have hmm' : m' = m := by
        rw [← hfm]
        unfold readStamp
        rw [if_neg hcond]
      subst hmm'
      simp [hconv, hsend] at hcond
      exact hcond
  · intro m hmem hconv hsend hunread
    refine List.mem_map.mpr ⟨m, hmem, ?_⟩
    unfold readStamp
    rw [if_pos]
    simp [hconv, hsend, hunread]
  · intro m' hm' hcase
    rcases List.mem_map.mp hm' with ⟨m, hmem, hfm⟩
    by_cases hcond : (m.conversation == cid && m.sender != u && !m.isRead) = true
    · have hmm' : m' = { m with isRead := true, readAt := some now } := by
        rw [← hfm]
        unfold readStamp
        rw [if_pos hcond]
      simp only [Bool.and_eq_true, beq_iff_eq, bne_iff_ne] at hcond
      rcases hcase with hnc | hs
      · refine absurd ?_ hnc
        rw [hmm']
        exact hcond.1.1
      · refine absurd ?_ hcond.1.2
        rw [hmm'] at hs
        exact hs
    · have hmm' : m' = m := by
        rw [← hfm]
        unfold readStamp
        rw [if_neg hcond]
      rw [hmm']
      exact hmem
  · have hmap : ((st.msgs.map (readStamp u cid now)).map (readStamp u cid now'))
        = st.msgs.map (readStamp u cid now) := by
      rw [List.map_map]
      exact List.map_congr_left (fun m _ => readStamp_idem u cid now now' m)
    have h2 := markRead_ok { st with msgs := st.msgs.map (readStamp u cid now) }
      u cid now' c hc hm
    rw [h2]
    simp [hmap]

/-- Witness for C8 at the fixture state holding one unread message from
user 2: user 1 marks the conversation read twice; both calls succeed and
the second changes nothing. -/
theorem c8_markread_idempotent_witness :
    ∃ st1, markRead wStMsg 1 5 100 = (.ok (), st1, [.messagesRead 5 1]) ∧
      st1.convs = wStMsg.convs ∧ st1.rl = wStMsg.rl ∧ st1.rooms = wStMsg.rooms ∧
      st1.msgs.length = wStMsg.msgs.length ∧
      (∀ m' ∈ st1.msgs, m'.conversation = 5 → m'.sender ≠ 1 →
        m'.isRead = true) ∧
      (∀ m ∈ wStMsg.msgs, m.conversation = 5 → m.sender ≠ 1 →
        m.isRead = false →
        ({ m with isRead := true, readAt := some 100 } : Msg) ∈ st1.msgs) ∧
      (∀ m' ∈ st1.msgs, (m'.conversation ≠ 5 ∨ m'.sender = 1) →
        m' ∈ wStMsg.msgs) ∧
      markRead st1 1 5 200 = (.ok (), st1, [.messagesRead 5 1]) :=
  c8_markread_idempotent wStMsg 1 5 100 200 wConv (by decide) (by decide)

/-- Join of a missing conversation: targeted error, state untouched. -/
theorem joinConversation_notFound (st : SockState) (u cid : Nat)
    (hc : findConvById st.convs cid = none) :
    joinConversation st u cid = (.error .notFound, st, [.errorEvt u .notFound]) := by
  simp [joinConversation, hc]

/-- Join by a non-participant: targeted error, state untouched. -/
theorem joinConversation_forbidden (st : SockState) (u cid : Nat) (c : Conv)
    (hc : findConvById st.convs cid = some c)
    (hm : c.users.contains u = false) :
    joinConversation st u cid = (.error .forbidden, st, [.errorEvt u .forbidden]) := by
  have hm' : u ∉ c.users := by simpa using hm
  simp [joinConversation, hc, hm']

/-- Mark-read of a missing conversation: targeted error, state
untouched. -/
theorem markRead_notFound (st : SockState) (u cid now : Nat)
    (hc : findConvById st.convs cid = none) :
    markRead st u cid now = (.error .notFound, st, [.errorEvt u .notFound]) := by
  simp [markRead, hc]

/-- Mark-read by a non-participant: targeted error, state untouched. -/
theorem markRead_forbidden (st : SockState) (u cid now : Nat) (c : Conv)
    (hc : findConvById st.convs cid = some c)
    (hm : c.users.contains u = false) :
    markRead st u cid now = (.error .forbidden, st, [.errorEvt u .forbidden]) := by
  have hm' : u ∉ c.users := by simpa using hm
  simp [markRead, hc, hm']

/-- A send by a non-participant of an existing conversation never
succeeds, whatever the content, the clock and the store failure flags. -/
theorem sendMessage_no_ok_nonmember (st : SockState) (u cid : Nat)
    (content : JStr) (now : Nat) (co so : Bool) (c : Conv)
    (hc : findConvById st.convs cid = some c)
    (hm : c.users.contains u = false) :
    ∀ m, (sendMessage st u cid content now co so).1 ≠ .ok m := by
  intro m
  have hm' : u ∉ c.users := by simpa using hm
  by_cases h1 : (jsTrim content).length = 0
  · simp [sendMessage, h1]
  · by_cases h2 : 5000 < content.length
    · simp [sendMessage, h1, h2]
    · cases hrl : rlStep st.rl u now with
      | none => simp [sendMessage, h1, h2, hrl]
      | some rl' =>
        by_cases hu : testUrl content = true
        · simp [sendMessage, h1, h2, hrl, hu]
        · by_cases hp : testPhone content = true
          · simp [sendMessage, h1, h2, hrl, hu, hp]
          · simp [sendMessage, h1, h2, hrl, hu, hp, hc, hm']

/-- C6 counterexample: the claim says a non-participant's send "changes
no state", but a send by non-participant 3 with valid content is
rejected as forbidden only after the rate-limit counter has been
consumed, so the service state does change. -/
theorem c6_membership_counterexample :
    (sendMessage wSt 3 5 "hello".data 0 true true).1 = .error .forbidden ∧
    (sendMessage wSt 3 5 "hello".data 0 true true).2.1 ≠ wSt :=
  ⟨by rfl, by decide⟩

/-- C6 amended: join and mark_read by a non-participant always fail with
the forbidden error and change no state; a send by a non-participant
never succeeds, and with content passing the validation filters it fails
with the forbidden error changing nothing but the already-consumed
rate-limit counter; each of the three operations fails with the
not-found error when the conversation id does not exist (send: with
content passing the filters), again changing nothing beyond that
counter. -/
theorem c6_membership_enforcement_amended :
    (∀ (st : SockState) (u cid : Nat) (c : Conv),
      findConvById st.convs cid = some c → c.users.contains u = false →
      joinConversation st u cid
        = (.error .forbidden, st, [.errorEvt u .forbidden])) ∧
    (∀ (st : SockState) (u cid now : Nat) (c : Conv),
      findConvById st.convs cid = some c → c.users.contains u = false →
      markRead st u cid now
        = (.error .forbidden, st, [.errorEvt u .forbidden])) ∧
    (∀ (st : SockState) (u cid : Nat) (content : JStr) (now : Nat)
       (co so : Bool) (rl' : RLMap) (c : Conv),
      findConvById st.convs cid = some c → c.users.contains u = false →
      (jsTrim content).length ≠ 0 → content.length ≤ 5000 →
      testUrl content = false → testPhone content = false →
      rlStep st.rl u now = some rl' →
      sendMessage st u cid content now co so
        = (.error .forbidden, { st with rl := rl' }, [.errorEvt u .forbidden])) ∧
    (∀ (st : SockState) (u cid : Nat) (content : JStr) (now : Nat)
       (co so : Bool) (c : Conv) (m : Msg),
      findConvById st.convs cid = some c → c.users.contains u = false →
      (sendMessage st u cid content now co so).1 ≠ .ok m) ∧
    (∀ (st : SockState) (u cid : Nat),
      findConvById st.convs cid = none →
      joinConversation st u cid
        = (.error .notFound, st, [.errorEvt u .notFound])) ∧
    (∀ (st : SockState) (u cid now : Nat),
      findConvById st.convs cid = none →
      markRead st u cid now
        = (.error .notFound, st, [.errorEvt u .notFound])) ∧
    (∀ (st : SockState) (u cid : Nat) (content : JStr) (now : Nat)
       (co so : Bool) (rl' : RLMap),
      findConvById st.convs cid = none →
      (jsTrim content).length ≠ 0 → content.length ≤ 5000 →
      testUrl content = false → testPhone content = false →
      rlStep st.rl u now = some rl' →
      sendMessage st u cid content now co so
        = (.error .notFound, { st with rl := rl' }, [.errorEvt u .notFound])) := by
  refine ⟨?_, ?_, ?_, ?_, ?_, ?_, ?_⟩
  · intro st u cid c hc hm
    exact joinConversation_forbidden st u cid c hc hm
  · intro st u cid now c hc hm
    exact markRead_forbidden st u cid now c hc hm
  · intro st u cid content now co so rl' c hc hm h1 h2 hu hp hrl
    exact sendMessage_forbidden_case st u cid content now co so rl' c h1 h2
      hrl hu hp hc hm
  · intro st u cid content now co so c m hc hm
    exact sendMessage_no_ok_nonmember st u cid content now co so c hc hm m
  · intro st u cid hc
    exact joinConversation_notFound st u cid hc
  · intro st u cid now hc
    exact markRead_notFound st u cid now hc
  · intro st u cid content now co so rl' hc h1 h2 hu hp hrl
    exact sendMessage_notFound_case st u cid content now co so rl' h1 h2
      hrl hu hp hc

/-- Witness for the amended C6 at the fixture state: non-participant 3 is
rejected as forbidden by join, mark_read and send, and a missing
conversation id is rejected as not found. -/
theorem c6_membership_enforcement_amended_witness :
    joinConversation wSt 3 5 = (.error .forbidden, wSt, [.errorEvt 3 .forbidden]) ∧
    markRead wSt 3 5 0 = (.error .forbidden, wSt, [.errorEvt 3 .forbidden]) ∧
    sendMessage wSt 3 5 "hello".data 0 true true
      = (.error .forbidden, { wSt with rl := [(3, ⟨1, 60000⟩)] },
         [.errorEvt 3 .forbidden]) ∧
    joinConversation wSt 1 99 = (.error .notFound, wSt, [.errorEvt 1 .notFound]) :=
  ⟨c6_membership_enforcement_amended.1 wSt 3 5 wConv (by decide) (by decide),
   c6_membership_enforcement_amended.2.1 wSt 3 5 0 wConv (by decide) (by decide),
   c6_membership_enforcement_amended.2.2.1 wSt 3 5 "hello".data 0 true true
     [(3, ⟨1, 60000⟩)] wConv (by decide) (by decide) (by decide) (by decide)
     (by decide) (by decide) (by decide),
   c6_membership_enforcement_amended.2.2.2.2.1 wSt 1 99 (by decide)⟩

/-- Send whose message insert fails: targeted error, no broadcast, and
nothing persisted (only the rate counter was consumed). -/
theorem sendMessage_createfail_case (st : SockState) (u cid : Nat)
    (content : JStr) (now : Nat) (so : Bool) (rl' : RLMap) (c : Conv)
    (h1 : (jsTrim content).length ≠ 0) (h2 : content.length ≤ 5000)
    (hrl : rlStep st.rl u now = some rl')
    (hu : testUrl content = false) (hp : testPhone content = false)
    (hc : findConvById st.convs cid = some c) (hm : c.users.contains u = true) :
    sendMessage st u cid content now false so =
      (.error .createFailed, { st with rl := rl' },
       [.errorEvt u .createFailed]) := by
  have hm' : u ∈ c.users := by simpa using hm
  simp [sendMessage, h1, Nat.not_lt.mpr h2, hrl, hu, hp, hc, hm']

/-- Every run of the send_message handler either fails with a single
targeted error event and no broadcast, or succeeds with the new message
already persisted and the broadcast naming that message. -/
theorem sendMessage_cases (st : SockState) (u cid : Nat) (content : JStr)
    (now : Nat) (co so : Bool) :
    (∃ e st', sendMessage st u cid content now co so
        = (.error e, st', [.errorEvt u e])) ∨
    (∃ m st' c, findConvById st.convs cid = some c ∧
      sendMessage st u cid content now co so
        = (.ok m, st', .newMessage cid m.id ::
            (c.users.filter (fun v => v != u)).map
              (fun v => Emit.msgNotify v cid m.id)) ∧
      m ∈ st'.msgs) := by
  by_cases h1 : (jsTrim content).length = 0
  · exact Or.inl ⟨.emptyContent, st, by simp [sendMessage, h1]⟩
  · by_cases h2 : 5000 < content.length
    · exact Or.inl ⟨.tooLong, st, by simp [sendMessage, h1, h2]⟩
    · cases hrl : rlStep st.rl u now with
      | none =>
        exact Or.inl ⟨.rateLimited, st,
          sendMessage_limited st u cid content now co so h1
            (Nat.le_of_not_lt h2) hrl⟩
      | some rl' =>
        by_cases hu : testUrl content = true
        · exact Or.inl ⟨.urlBlocked, _,
            sendMessage_url_case st u cid content now co so rl' h1
              (Nat.le_of_not_lt h2) hrl hu⟩
        · have hu' : testUrl content = false := by simpa using hu
          by_cases hp : testPhone content = true
          · exact Or.inl ⟨.phoneBlocked, _,
              sendMessage_phone_case st u cid content now co so rl' h1
                (Nat.le_of_not_lt h2) hrl hu' hp⟩
          · have hp' : testPhone content = false := by simpa using hp
            cases hcv : findConvById st.convs cid with
            | none =>
              exact Or.inl ⟨.notFound, _,
                sendMessage_notFound_case st u cid content now co so rl' h1
                  (Nat.le_of_not_lt h2) hrl hu' hp' hcv⟩
            | some c =>
              cases hmem : c.users.contains u with
              | false =>
                exact Or.inl ⟨.forbidden, _,
                  sendMessage_forbidden_case st u cid content now co so rl' c
                    h1 (Nat.le_of_not_lt h2) hrl hu' hp' hcv hmem⟩
              | true =>
                cases co with
                | false =>
                  exact Or.inl ⟨.createFailed, _,
                    sendMessage_createfail_case st u cid content now so rl' c
                      h1 (Nat.le_of_not_lt h2) hrl hu' hp' hcv hmem⟩
                | true =>
                  cases so with
                  | false =>
                    exact Or.inl ⟨.saveFailed, _,
                      sendMessage_savefail_case st u cid content now rl' c h1
                        (Nat.le_of_not_lt h2) hrl hu' hp' hcv hmem⟩
                  | true =>
                    refine Or.inr ⟨⟨st.nextMsgId, cid, u, jsTrim content,
                      false, none⟩,
                      { convs := st.convs.map (convTouch cid st.nextMsgId now),
                        msgs := st.msgs ++
                          [⟨st.nextMsgId, cid, u, jsTrim content, false, none⟩],
                        rl := rl',
                        rooms := st.rooms,
                        nextMsgId := st.nextMsgId + 1 }, c, rfl, ?_, ?_⟩
                    · exact sendMessage_ok_case st u cid content now rl' c h1
                        (Nat.le_of_not_lt h2) hrl hu' hp' hcv hmem
                    · simp

/-- C7 counterexample: the claim also asserts that no partial write can
leave an orphaned message, but when the message insert succeeds and the
conversation save then fails, the sender gets the targeted error and
nothing is broadcast while the message stays persisted with the
conversation's last-message pointer not updated. -/
theorem c7_orphan_counterexample :
    (sendMessage wSt 1 5 "hello".data 0 true false).1 = .error .saveFailed ∧
    (sendMessage wSt 1 5 "hello".data 0 true false).2.2
      = [.errorEvt 1 .saveFailed] ∧
    (∃ m ∈ (sendMessage wSt 1 5 "hello".data 0 true false).2.1.msgs,
      m.conversation = 5) ∧
    (∀ c ∈ (sendMessage wSt 1 5 "hello".data 0 true false).2.1.convs,
      c.lastMessage = none) :=
  ⟨by rfl, by decide, by decide, by decide⟩

/-- C7 amended: the `new_message` broadcast happens only after the
message has been persisted (a broadcast names a message that the final
store holds); every persistence failure is surfaced as a single targeted
error event with nothing broadcast; a failed message insert persists
nothing; but a failed conversation save after a successful insert leaves
the message persisted with the conversation's last-message pointer not
updated — an orphaned message is possible. -/
theorem c7_persist_before_broadcast_amended :
    (∀ (st : SockState) (u cid : Nat) (content : JStr) (now : Nat)
       (co so : Bool) (cid' mid : Nat),
      Emit.newMessage cid' mid ∈ (sendMessage st u cid content now co so).2.2 →
      ∃ m, (sendMessage st u cid content now co so).1 = .ok m ∧ mid = m.id ∧
        m ∈ (sendMessage st u cid content now co so).2.1.msgs) ∧
    (∀ (st : SockState) (u cid : Nat) (content : JStr) (now : Nat)
       (co so : Bool) (e : SockErr),
      (sendMessage st u cid content now co so).1 = .error e →
      (sendMessage st u cid content now co so).2.2 = [.errorEvt u e]) ∧
    (∀ (st : SockState) (u cid : Nat) (content : JStr) (now : Nat)
       (so : Bool) (rl' : RLMap) (c : Conv),
      (jsTrim content).length ≠ 0 → content.length ≤ 5000 →
      rlStep st.rl u now = some rl' → testUrl content = false →
      testPhone content = false → findConvById st.convs cid = some c →
      c.users.contains u = true →
      sendMessage st u cid content now false so
        = (.error .createFailed, { st with rl := rl' },
           [.errorEvt u .createFailed])) ∧
    (∀ (st : SockState) (u cid : Nat) (content : JStr) (now : Nat)
       (rl' : RLMap) (c : Conv),
      (jsTrim content).length ≠ 0 → content.length ≤ 5000 →
      rlStep st.rl u now = some rl' → testUrl content = false →
      testPhone content = false → findConvById st.convs cid = some c →
      c.users.contains u = true →
      sendMessage st u cid content now true false
        = (.error .saveFailed,
           { convs := st.convs,
             msgs := st.msgs ++
               [⟨st.nextMsgId, cid, u, jsTrim content, false, none⟩],
             rl := rl', rooms := st.rooms, nextMsgId := st.nextMsgId + 1 },
           [.errorEvt u .saveFailed])) := by
  refine ⟨?_, ?_, ?_, ?_⟩
  · intro st u cid content now co so cid' mid hmem
    rcases sendMessage_cases st u cid content now co so with
      ⟨e, st', heq⟩ | ⟨m, st', c, hcv, heq, hmm⟩
    · rw [heq] at hmem
      simp at hmem
    · rw [heq] at hmem
      simp at hmem
      refine ⟨m, ?_, hmem.2, ?_⟩
      · rw [heq]
      · rw [heq]
        exact hmm
  · intro st u cid content now co so e h
    rcases sendMessage_cases st u cid content now co so with
      ⟨e0, st', heq⟩ | ⟨m, st', c, hcv, heq, hmm⟩
    · rw [heq] at h
      simp at h
      rw [heq, h]
    · rw [heq] at h
      simp at h
  · intro st u cid content now so rl' c h1 h2 hrl hu hp hc hm
    exact sendMessage_createfail_case st u cid content now so rl' c h1 h2
      hrl hu hp hc hm
  · intro st u cid content now rl' c h1 h2 hrl hu hp hc hm
    exact sendMessage_savefail_case st u cid content now rl' c h1 h2
      hrl hu hp hc hm

/-- Witness for the amended C7 at the fixture state: a failed insert
persists nothing and a failed conversation save leaves the inserted
message without the conversation update, in both cases with only the
targeted error event. -/
theorem c7_persist_before_broadcast_amended_witness :
    sendMessage wSt 1 5 "hello".data 0 false true
      = (.error .createFailed, { wSt with rl := [(1, ⟨1, 60000⟩)] },
         [.errorEvt 1 .createFailed]) ∧
    sendMessage wSt 1 5 "hello".data 0 true false
      = (.error .saveFailed,
         { convs := wSt.convs,
           msgs := wSt.msgs ++
             [⟨wSt.nextMsgId, 5, 1, jsTrim "hello".data, false, none⟩],
           rl := [(1, ⟨1, 60000⟩)], rooms := wSt.rooms,
           nextMsgId := wSt.nextMsgId + 1 },
         [.errorEvt 1 .saveFailed]) :=
  ⟨c7_persist_before_broadcast_amended.2.2.1 wSt 1 5 "hello".data 0 true
     [(1, ⟨1, 60000⟩)] wConv (by decide) (by decide) (by decide) (by decide)
     (by decide) (by decide) (by decide),
   c7_persist_before_broadcast_amended.2.2.2 wSt 1 5 "hello".data 0
     [(1, ⟨1, 60000⟩)] wConv (by decide) (by decide) (by decide) (by decide)
     (by decide) (by decide) (by decide)⟩

end Cb
